/-
Verification of the highext extraction/normalization pipeline.

Shallow embedding of the Python sources under src/:
  - src/utils.py        : rgb_to_color_name, rgb_to_hex, group_highlights,
                          format_json_output
  - src/extractor.py    : HighlightExtractor (text recovery, annotation
                          normalization, per-page/per-document aggregation)
  - src/notion_exporter.py, src/xmind_exporter.py : grouping traversals and
                          the XMind export entry point

Python floats are modelled as exact rationals (ℚ); Python str.strip() is
modelled by pyStrip (drop leading/trailing whitespace characters); Python
dicts that are used in insertion order are modelled as association lists.
Exceptions raised by the external PDF collaborator are modelled by the
Res type; raising Python functions of the repository itself are modelled
with Except.
-/
import Mathlib

namespace Highext

/-! ## src/utils.py : rgb_to_color_name -/

/-- The `known_colors` table of `rgb_to_color_name` (src/utils.py lines
24-62), in Python dict insertion order.  Values are exact rationals. -/
def known_colors : List (String × ℚ × ℚ × ℚ) :=
  [ ("Yellow", 1.0, 1.0, 0.0),
    ("Red", 1.0, 0.0, 0.0),
    ("Green", 0.0, 1.0, 0.0),
    ("Blue", 0.0, 0.0, 1.0),
    ("Orange", 1.0, 0.5, 0.0),
    ("Magenta", 1.0, 0.0, 1.0),
    ("Cyan", 0.0, 1.0, 1.0),
    ("Purple", 0.5, 0.0, 0.5),
    ("Pink", 1.0, 0.75, 0.8),
    ("Light Yellow", 1.0, 0.98, 0.6),
    ("Light Green", 0.6, 1.0, 0.6),
    ("Light Blue", 0.6, 0.8, 1.0),
    ("Light Pink", 1.0, 0.7, 0.7),
    ("Light Purple", 0.8, 0.6, 0.8),
    ("Light Orange", 1.0, 0.8, 0.4),
    ("Light Gray", 0.9, 0.9, 0.9),
    ("Dark Red", 0.5, 0.0, 0.0),
    ("Dark Green", 0.0, 0.5, 0.0),
    ("Dark Blue", 0.0, 0.0, 0.5),
    ("Gray", 0.5, 0.5, 0.5),
    ("Black", 0.0, 0.0, 0.0),
    ("White", 1.0, 1.0, 1.0),
    ("Teal", 0.0, 0.5, 0.5),
    ("Olive", 0.5, 0.5, 0.0),
    ("Maroon", 0.5, 0.0, 0.0),
    ("Navy", 0.0, 0.0, 0.5),
    ("Lime", 0.0, 1.0, 0.0),
    ("Gold", 1.0, 0.84, 0.0),
    ("Salmon", 0.98, 0.5, 0.45),
    ("Sky Blue", 0.53, 0.81, 0.92) ]

/-- The `grayscale_names` set of `rgb_to_color_name` (src/utils.py line 75). -/
def grayscale_names : List String := ["Gray", "Light Gray", "Black", "White"]

/-- Python's two-argument `max` on numbers (returns the second argument
only when it is strictly greater). -/
def pymax (a b : ℚ) : ℚ := if a < b then b else a

/-- Python's two-argument `min` on numbers. -/
def pymin (a b : ℚ) : ℚ := if b < a then b else a

/-- One iteration of the classification loop in `rgb_to_color_name`
(src/utils.py lines 77-89).  State: (`min_dist`, `closest_name`) where
`none` models `float('inf')`. -/
def classifyStep (is_chromatic : Bool) (r g b : ℚ)
    (st : Option ℚ × String) (e : String × ℚ × ℚ × ℚ) : Option ℚ × String :=
  if is_chromatic = true ∧ e.1 ∈ grayscale_names then st
  else
    let d := (r - e.2.1) ^ 2 + (g - e.2.2.1) ^ 2 + (b - e.2.2.2) ^ 2
    match st.1 with
    | none => (some d, e.1)
    | some m => if d < m then (some d, e.1) else st

/-- Embeds `rgb_to_color_name` (src/utils.py lines 9-91). -/
def rgb_to_color_name (rgb : List ℚ) : String :=
  if rgb.length < 3 then "unknown"
  else
    let r := rgb.getD 0 0
    let g := rgb.getD 1 0
    let b := rgb.getD 2 0
    let saturation := pymax r (pymax g b) - pymin r (pymin g b)
    let is_chromatic : Bool := decide (saturation > 0.15)
    (known_colors.foldl (classifyStep is_chromatic r g b) (none, "Gray")).2

/-! ## src/utils.py : rgb_to_hex -/

/-- Upper-case hexadecimal digit for a value below 16 (models Python's
`{:02X}` format for one digit). -/
def hexDigit (n : ℕ) : Char :=
  ['0', '1', '2', '3', '4', '5', '6', '7', '8', '9',
   'A', 'B', 'C', 'D', 'E', 'F'].getD n '0'

/-- Two-digit upper-case hexadecimal rendering of a byte (Python `{:02X}`). -/
def byteToHex (n : ℕ) : String :=
  String.mk [hexDigit (n / 16), hexDigit (n % 16)]

/-- Embeds `rgb_to_hex` (src/utils.py lines 94-119).  Python `int()` on a
non-negative float truncates, which is `Int.floor` here since the channel
is clamped to [0, 1] first. -/
def rgb_to_hex (rgb : List ℚ) : String :=
  if rgb.length < 3 then "#FFFFFF"
  else
    let r := rgb.getD 0 0
    let g := rgb.getD 1 0
    let b := rgb.getD 2 0
    let rescale := r > 1.0 ∨ g > 1.0 ∨ b > 1.0
    let r := if rescale then r / 255 else r
    let g := if rescale then g / 255 else g
    let b := if rescale then b / 255 else b
    let r := pymax 0.0 (pymin 1.0 r)
    let g := pymax 0.0 (pymin 1.0 g)
    let b := pymax 0.0 (pymin 1.0 b)
    "#" ++ byteToHex (r * 255).floor.toNat ++ byteToHex (g * 255).floor.toNat
      ++ byteToHex (b * 255).floor.toNat

/-! ## Proof infrastructure for the classifier -/

/-- In chromatic mode the classification loop never moves the current best
name onto a grayscale name: the fold either keeps the initial name or ends
on a non-grayscale table entry. -/
theorem classify_foldl_not_gray (r g b : ℚ) (st : Option ℚ × String)
    (l : List (String × ℚ × ℚ × ℚ)) :
    (l.foldl (classifyStep true r g b) st).2 = st.2 ∨
      (l.foldl (classifyStep true r g b) st).2 ∉ grayscale_names := by
  induction l generalizing st with
  | nil => exact Or.inl rfl
  | cons e l ih =>
    simp only [List.foldl_cons]
    rcases ih (classifyStep true r g b st e) with h | h
    · rw [h]
      obtain ⟨d0, n0⟩ := st
      unfold classifyStep
      split
      · exact Or.inl rfl
      · rename_i hc
        have hne : e.1 ∉ grayscale_names := fun hmem => hc ⟨rfl, hmem⟩
        cases d0 with
        | none => exact Or.inr hne
        | some m =>
          dsimp only
          split
          · exact Or.inr hne
          · exact Or.inl rfl
    · exact Or.inr h

/-- C2: the color classifier and hex converter return the spec's reference
values: Yellow, Red, Green (with Green winning the zero-distance tie against
Lime by first-minimum table order), and `to_hex([1.0,0.0,0.0]) = "#FF0000"`. -/
theorem C2_reference_values :
    rgb_to_color_name [1.0, 1.0, 0.0] = "Yellow" ∧
    rgb_to_color_name [1.0, 0.0, 0.0] = "Red" ∧
    rgb_to_color_name [0.0, 1.0, 0.0] = "Green" ∧
    rgb_to_hex [1.0, 0.0, 0.0] = "#FF0000" := by
  refine ⟨?_, ?_, ?_, ?_⟩ <;> with_unfolding_all decide

/-- C3: whenever the first three components of the input have saturation
`max - min` strictly above `0.15`, `rgb_to_color_name` never answers one of
the four grayscale names. -/
theorem C3_chromatic_not_grayscale (rgb : List ℚ) (h3 : 3 ≤ rgb.length)
    (hsat : pymax (rgb.getD 0 0) (pymax (rgb.getD 1 0) (rgb.getD 2 0)) -
      pymin (rgb.getD 0 0) (pymin (rgb.getD 1 0) (rgb.getD 2 0)) > 0.15) :
    rgb_to_color_name rgb ∉ grayscale_names := by
  unfold rgb_to_color_name
  rw [if_neg (by omega)]
  dsimp only
  rw [decide_eq_true hsat]
  unfold known_colors
  rw [List.foldl_cons]
  rcases classify_foldl_not_gray (rgb.getD 0 0) (rgb.getD 1 0) (rgb.getD 2 0)
      (classifyStep true (rgb.getD 0 0) (rgb.getD 1 0) (rgb.getD 2 0)
        (none, "Gray") ("Yellow", 1.0, 1.0, 0.0)) _ with h | h
  · rw [h]
    show "Yellow" ∉ grayscale_names
    decide
  · exact h

/-- Witness for C3 at the concrete chromatic input [1, 0, 0, 7]. -/
theorem C3_chromatic_not_grayscale_witness :
    (3 ≤ ([1, 0, 0, 7] : List ℚ).length ∧
      pymax (([1, 0, 0, 7] : List ℚ).getD 0 0)
          (pymax (([1, 0, 0, 7] : List ℚ).getD 1 0) (([1, 0, 0, 7] : List ℚ).getD 2 0)) -
        pymin (([1, 0, 0, 7] : List ℚ).getD 0 0)
          (pymin (([1, 0, 0, 7] : List ℚ).getD 1 0) (([1, 0, 0, 7] : List ℚ).getD 2 0)) > 0.15) ∧
    rgb_to_color_name [1, 0, 0, 7] ∉ grayscale_names :=
  ⟨⟨by decide, by with_unfolding_all decide⟩,
    C3_chromatic_not_grayscale [1, 0, 0, 7] (by decide) (by with_unfolding_all decide)⟩

/-! ## Python str.strip() -/

/-- Python `str.strip()` on the character list: drop leading and trailing
whitespace. -/
def stripList (l : List Char) : List Char :=
  ((l.dropWhile Char.isWhitespace).reverse.dropWhile Char.isWhitespace).reverse

/-- Python `str.strip()`. -/
def pyStrip (s : String) : String := String.mk (stripList s.data)

theorem stripList_eq_nil_iff (l : List Char) :
    stripList l = [] ↔ ∀ c ∈ l.dropWhile Char.isWhitespace, c.isWhitespace := by
  unfold stripList
  rw [List.reverse_eq_nil_iff, List.dropWhile_eq_nil_iff]
  constructor
  · intro h c hc
    exact h c (List.mem_reverse.mpr hc)
  · intro h c hc
    exact h c (List.mem_reverse.mp hc)

/-- Stripping an already-stripped non-blank list never yields the empty
list: a stripped string that is non-empty is still non-empty after another
strip. -/
theorem stripList_stripList_ne_nil (l : List Char) (h : stripList l ≠ []) :
    stripList (stripList l) ≠ [] := by
  intro hcontra
  rw [stripList_eq_nil_iff] at hcontra
  -- the strip-of-the-strip dropped everything, so every character of
  -- `stripList l` would be whitespace; but `stripList l` ends with the
  -- non-whitespace head of an inner dropWhile, contradiction.
  have h' : (l.dropWhile Char.isWhitespace).reverse.dropWhile Char.isWhitespace ≠ [] := by
    intro hx
    apply h
    unfold stripList
    rw [hx]
    rfl
  have hlen : 0 < ((stripList l).dropWhile Char.isWhitespace).length := by
    rcases Nat.eq_zero_or_pos ((stripList l).dropWhile Char.isWhitespace).length with hz | hpos
    · exfalso
      have hnil := List.eq_nil_of_length_eq_zero hz
      rw [List.dropWhile_eq_nil_iff] at hnil
      apply h'
      rw [List.dropWhile_eq_nil_iff]
      intro c hc
      have hsplit := List.takeWhile_append_dropWhile Char.isWhitespace
        (l := (l.dropWhile Char.isWhitespace).reverse)
      rw [← hsplit] at hc
      rcases List.mem_append.mp hc with h1 | h2
      · exact List.mem_takeWhile_imp h1
      · apply hnil
        unfold stripList
        exact List.mem_reverse.mpr h2
    · exact hpos
  have hhead := List.dropWhile_get_zero_not Char.isWhitespace (stripList l) hlen
  exact hhead (hcontra _ (List.get_mem _ _ _))

/-! ## The PDF collaborator interface (src/extractor.py) -/

/-- Outcome of a call into the external PDF collaborator: a value, or a
raised exception (the message is irrelevant to the caught-and-logged
control flow). -/
inductive Res (α : Type) where
  | ok (a : α)
  | exc
deriving DecidableEq

/-- A value found under the `stroke`/`fill` keys of `annot.colors`: either
a flat sequence of numbers, or some mapping/object (the `isinstance(color,
dict)` defensive branch). -/
inductive ColorVal where
  | nums (cs : List ℚ)
  | obj
deriving DecidableEq

/-- A `fitz.Rect`-style axis-aligned rectangle. -/
structure Rect where
  x0 : ℚ
  y0 : ℚ
  x1 : ℚ
  y1 : ℚ
deriving DecidableEq

/-- One raw annotation as surfaced by the collaborator.  `colors_stroke =
none` models an absent `stroke` entry (Python `dict.get` returning `None`),
likewise for fill; `vertices = none` models `annot.vertices` being `None`. -/
structure RawAnnot where
  typeCode : ℕ
  vertices : Option (List (ℚ × ℚ))
  colors_stroke : Option ColorVal
  colors_fill : Option ColorVal
  rect : Rect
  info_title : Option String
  info_subject : Option String
  info_creationDate : Option String
deriving DecidableEq

/-- One page handle: the annotation enumeration (which may raise, modelling
a corrupt annotation stream) and the `page.get_text("text", clip=rect)`
query (which may raise per call). -/
structure Page where
  annots : Res (List RawAnnot)
  getTextClip : Rect → Res String

/-- An open document: its ordered pages. -/
structure Doc where
  pages : List Page

/-- The normalized highlight record built by
`HighlightExtractor._extract_highlight_data`. -/
structure Highlight where
  page : ℕ
  text : String
  color : List ℚ
  color_name : String
  rect : List ℚ
  author : Option String
  created : Option String
deriving DecidableEq

/-! ## Text recovery (`_get_highlight_text`, src/extractor.py lines 180-229) -/

/-- The quad grouping of the Python loop `for i in range(0, len(vertices),
4): if i + 3 < len(vertices): quad = vertices[i:i+4]`: strict chunks of 4,
ignoring a trailing incomplete chunk. -/
def chunks4 : List (ℚ × ℚ) → List (List (ℚ × ℚ))
  | a :: b :: c :: d :: rest => [a, b, c, d] :: chunks4 rest
  | _ => []

/-- Python `min` over a non-empty list (0 default is never used on the
4-point chunks this is applied to). -/
def listMin : List ℚ → ℚ
  | [] => 0
  | x :: xs => xs.foldl pymin x

/-- Python `max` over a non-empty list. -/
def listMax : List ℚ → ℚ
  | [] => 0
  | x :: xs => xs.foldl pymax x

/-- Computes `fitz.Rect(min(xs), min(ys), max(xs), max(ys))` for one quad chunk. -/
def bboxOf (q : List (ℚ × ℚ)) : Rect :=
  { x0 := listMin (q.map Prod.fst), y0 := listMin (q.map Prod.snd),
    x1 := listMax (q.map Prod.fst), y1 := listMax (q.map Prod.snd) }

/-- The collection loop over quad chunks: query the page text clipped to
each chunk's bounding box, strip it, keep the non-empty results in order.
A raising query aborts the whole primary path (models the exception
escaping the `for` loop into the `except` handler). -/
def collectParts (page : Page) : List (List (ℚ × ℚ)) → Res (List String)
  | [] => .ok []
  | q :: qs =>
    match page.getTextClip (bboxOf q) with
    | .exc => .exc
    | .ok t =>
      match collectParts page qs with
      | .exc => .exc
      | .ok rest => .ok (if pyStrip t = "" then rest else pyStrip t :: rest)

/-- The `try:` block of `_get_highlight_text`: quad-based extraction, the
in-block fallback to the annotation rectangle when no parts were collected,
and the final `" ".join(text_parts)`. -/
def tryGetText (page : Page) (annot : RawAnnot) : Res String :=
  let partsRes : Res (List String) :=
    match annot.vertices with
    | some vs => if 4 ≤ vs.length then collectParts page (chunks4 vs) else .ok []
    | none => .ok []
  match partsRes with
  | .exc => .exc
  | .ok parts =>
    if parts.isEmpty then
      match page.getTextClip annot.rect with
      | .exc => .exc
      | .ok t => .ok (String.intercalate " " (if pyStrip t = "" then [] else [pyStrip t]))
    else .ok (String.intercalate " " parts)

/-- Embeds `_get_highlight_text`: the `try:` block, and on a raised exception the
one retry of the plain bounding-rectangle query, returning `""` if that
also raises. -/
def get_highlight_text (page : Page) (annot : RawAnnot) : String :=
  match tryGetText page annot with
  | .ok s => s
  | .exc =>
    match page.getTextClip annot.rect with
    | .ok t => pyStrip t
    | .exc => ""

/-! ## Color resolution (`_extract_highlight_data`, lines 131-148) -/

/-- Selection of the raw color value: `annot.colors.get("stroke")`, else
`annot.colors.get("fill", [1.0, 1.0, 0.0])`. -/
def rawColor (stroke fill : Option ColorVal) : ColorVal :=
  match stroke with
  | some v => v
  | none =>
    match fill with
    | some v => v
    | none => .nums [1.0, 1.0, 0.0]

/-- Normalization of the selected value: mapping/object → default yellow;
1 component → broadcast; otherwise pad with trailing `0.0` up to 3; then
truncate to the first 3 components (`color = color[:3]`). -/
def normColor : ColorVal → List ℚ
  | .obj => [1.0, 1.0, 0.0]
  | .nums cs =>
    let cs' :=
      if cs.length < 3 then
        match cs with
        | [v] => [v, v, v]
        | _ => cs ++ List.replicate (3 - cs.length) 0.0
      else cs
    cs'.take 3

/-- The color resolved by `_extract_highlight_data` for one annotation. -/
def resolveColor (stroke fill : Option ColorVal) : List ℚ :=
  normColor (rawColor stroke fill)

/-- Python truthiness filter on an optional string (`x or y` chains treat
`""` like `None`). -/
def truthy : Option String → Option String
  | some s => if s = "" then none else some s
  | none => none

/-- Computes `info.get("title") or info.get("subject") or None`. -/
def author_of (title subject : Option String) : Option String :=
  match truthy title with
  | some x => some x
  | none => truthy subject

/-- Embeds `_extract_highlight_data` (src/extractor.py lines 123-174): recover the
text, discard the annotation when it strips to empty, resolve and normalize
the color, classify it, and read rectangle/author/creation date. -/
def extract_highlight_data (page : Page) (annot : RawAnnot) (page_num : ℕ) :
    Option Highlight :=
  let text := get_highlight_text page annot
  if pyStrip text = "" then none
  else
    let color := resolveColor annot.colors_stroke annot.colors_fill
    some
      { page := page_num
        text := pyStrip text
        color := color
        color_name := rgb_to_color_name color
        rect := [annot.rect.x0, annot.rect.y0, annot.rect.x1, annot.rect.y1]
        author := author_of annot.info_title annot.info_subject
        created := annot.info_creationDate }

/-! ## Aggregation (`_extract_page_highlights`, `extract_highlights`) -/

/-- Embeds `_extract_page_highlights` (lines 72-104): a raising annotation
enumeration contributes zero highlights; otherwise keep, in order, the
records of the annotations whose type code is 8 (Highlight) and whose
extraction succeeds. -/
def extract_page_highlights (page : Page) (page_num : ℕ) : List Highlight :=
  match page.annots with
  | .exc => []
  | .ok annots =>
    annots.filterMap fun a =>
      if a.typeCode = 8 then extract_highlight_data page a page_num else none

/-- The page loop of `extract_highlights`: pages in document order,
1-indexed page numbers. -/
def pagesHighlights : List Page → ℕ → List Highlight
  | [], _ => []
  | p :: ps, n => extract_page_highlights p n ++ pagesHighlights ps (n + 1)

/-- The extraction result dictionary.  `source_file`, `source_path` and
`extraction_date` are environment pass-throughs (file name, absolute path,
wall-clock time) supplied by the caller of the model. -/
structure ExtractionResult where
  source_file : String
  source_path : String
  extraction_date : String
  total_pages : ℕ
  total_highlights : ℕ
  highlights : List Highlight
deriving DecidableEq

/-- Embeds `extract_highlights` (lines 38-70) on an open document. -/
def extract_highlights (source_file source_path extraction_date : String)
    (doc : Doc) : ExtractionResult :=
  let hs := pagesHighlights doc.pages 1
  { source_file := source_file
    source_path := source_path
    extraction_date := extraction_date
    total_pages := doc.pages.length
    total_highlights := hs.length
    highlights := hs }

/-- The guard of `extract_highlights`: called without an open document
(`self.doc` unset) it raises `RuntimeError`; on an open document it returns
the result and never raises. -/
def extract_highlights_checked (source_file source_path extraction_date : String) :
    Option Doc → Except String ExtractionResult
  | none => .error "Document not opened. Use context manager."
  | some doc => .ok (extract_highlights source_file source_path extraction_date doc)

/-! ## C1: the normalized-highlight invariant -/

/-- All numeric components of an optional raw color value lie in [0, 1]
(vacuously true for an absent value or a mapping/object). -/
def colorValInRange : Option ColorVal → Prop
  | some (.nums cs) => ∀ c ∈ cs, 0 ≤ c ∧ c ≤ 1
  | _ => True

theorem normColor_length (v : ColorVal) : (normColor v).length = 3 := by
  cases v with
  | obj => rfl
  | nums cs =>
    unfold normColor
    dsimp only
    rw [List.length_take]
    split
    · rename_i hlt
      match cs with
      | [] => simp
      | [a] => simp
      | [a, b] => simp
      | a :: b :: c :: t => simp only [List.length_cons] at hlt; omega
    · rename_i hge
      omega

theorem normColor_inRange (v : ColorVal) (hv : colorValInRange (some v)) :
    ∀ c ∈ normColor v, 0 ≤ c ∧ c ≤ 1 := by
  intro c hc
  cases v with
  | obj =>
    simp only [normColor, List.mem_cons, List.not_mem_nil, or_false] at hc
    rcases hc with h | h | h <;> (rw [h]; norm_num)
  | nums cs =>
    have hv' : ∀ x ∈ cs, 0 ≤ x ∧ x ≤ 1 := hv
    match cs, hv' with
    | [], hv' =>
      have hn : normColor (.nums []) = [0.0, 0.0, 0.0] := rfl
      rw [hn] at hc
      simp only [List.mem_cons, List.not_mem_nil, or_false] at hc
      rcases hc with h | h | h <;> (rw [h]; norm_num)
    | [a], hv' =>
      have hn : normColor (.nums [a]) = [a, a, a] := rfl
      rw [hn] at hc
      simp only [List.mem_cons, List.not_mem_nil, or_false] at hc
      rcases hc with h | h | h <;> (rw [h]; exact hv' a (by simp))
    | [a, b], hv' =>
      have hn : normColor (.nums [a, b]) = [a, b, 0.0] := rfl
      rw [hn] at hc
      simp only [List.mem_cons, List.not_mem_nil, or_false] at hc
      rcases hc with h | h | h
      · rw [h]; exact hv' a (by simp)
      · rw [h]; exact hv' b (by simp)
      · rw [h]; norm_num
    | a :: b :: d :: t, hv' =>
      have hn : normColor (.nums (a :: b :: d :: t)) = [a, b, d] := by
        unfold normColor
        dsimp only
        rw [if_neg (by simp only [List.length_cons]; omega)]
        rfl
      rw [hn] at hc
      simp only [List.mem_cons, List.not_mem_nil, or_false] at hc
      rcases hc with h | h | h
      · rw [h]; exact hv' a (by simp)
      · rw [h]; exact hv' b (by simp)
      · rw [h]; exact hv' d (by simp)

theorem resolveColor_inRange (stroke fill : Option ColorVal)
    (hs : colorValInRange stroke) (hf : colorValInRange fill) :
    ∀ c ∈ resolveColor stroke fill, 0 ≤ c ∧ c ≤ 1 := by
  cases stroke with
  | some v => exact normColor_inRange v hs
  | none =>
    cases fill with
    | some v => exact normColor_inRange v hf
    | none =>
      apply normColor_inRange
      show ∀ c ∈ [(1.0 : ℚ), 1.0, 0.0], 0 ≤ c ∧ c ≤ 1
      intro c hc
      simp only [List.mem_cons, List.not_mem_nil, or_false] at hc
      rcases hc with h | h | h <;> (rw [h]; norm_num)

theorem pyStrip_eq_empty_iff (s : String) : pyStrip s = "" ↔ stripList s.data = [] := by
  unfold pyStrip
  constructor
  · intro h
    have h2 := congrArg String.data h
    simpa using h2
  · intro h
    rw [h]

/-- C1 counterexample data: a collaborator that surfaces an out-of-range
stroke color component (2.0).  The code copies the components through
without clamping. -/
def cexPage : Page where
  annots := .ok []
  getTextClip := fun _ => .ok "hello"

def cexAnnot : RawAnnot where
  typeCode := 8
  vertices := none
  colors_stroke := some (.nums [2, 0, 0])
  colors_fill := none
  rect := ⟨0, 0, 1, 1⟩
  info_title := none
  info_subject := none
  info_creationDate := none

def cexHigh : Highlight where
  page := 1
  text := "hello"
  color := [2, 0, 0]
  color_name := "Red"
  rect := [0, 0, 1, 1]
  author := none
  created := none

/-- C1 is false as stated: for a raw annotation whose surfaced stroke color
is [2.0, 0.0, 0.0], the record kept in the result has a color component
outside [0.0, 1.0] — the extractor never clamps. -/
theorem C1_counterexample :
    extract_highlight_data cexPage cexAnnot 1 = some cexHigh ∧
    ¬ (∀ c ∈ cexHigh.color, 0 ≤ c ∧ c ≤ 1) := by
  constructor
  · with_unfolding_all decide
  · intro hall
    have h2 := (hall 2 (by simp [cexHigh])).2
    norm_num at h2

/-- C1 (amended): every record produced by `_extract_highlight_data` has
non-empty text that is still non-empty after stripping, a color with
exactly 3 components, and a `color_name` computed by the classifier from
exactly that color; the components lie in [0.0, 1.0] provided every
numeric component the collaborator surfaced in the stroke/fill colors lies
in [0.0, 1.0] (the code copies or defaults, but never clamps). -/
theorem C1_normalized_invariant (page : Page) (annot : RawAnnot)
    (page_num : ℕ) (h : Highlight)
    (hres : extract_highlight_data page annot page_num = some h) :
    h.text ≠ "" ∧ pyStrip h.text ≠ "" ∧
    h.color.length = 3 ∧
    h.color_name = rgb_to_color_name h.color ∧
    (colorValInRange annot.colors_stroke → colorValInRange annot.colors_fill →
      ∀ c ∈ h.color, 0 ≤ c ∧ c ≤ 1) := by
  unfold extract_highlight_data at hres
  dsimp only at hres
  split at hres
  · exact absurd hres (by simp)
  · rename_i hne
    have hh := Option.some.inj hres
    subst hh
    refine ⟨hne, ?_, normColor_length _, rfl, ?_⟩
    · intro hc
      rw [pyStrip_eq_empty_iff] at hc
      rw [pyStrip_eq_empty_iff] at hne
      exact stripList_stripList_ne_nil _ hne (by simpa [pyStrip] using hc)
    · intro hs hf
      exact resolveColor_inRange _ _ hs hf

/-- C1 amended-claim witness data: an in-range stroke color. -/
def w1Annot : RawAnnot where
  typeCode := 8
  vertices := none
  colors_stroke := some (.nums [1, 0, 0])
  colors_fill := none
  rect := ⟨0, 0, 1, 1⟩
  info_title := some "Ann"
  info_subject := none
  info_creationDate := some "D:20240101"

def w1High : Highlight where
  page := 1
  text := "hello"
  color := [1, 0, 0]
  color_name := "Red"
  rect := [0, 0, 1, 1]
  author := some "Ann"
  created := some "D:20240101"

/-- Witness for the amended C1 at a concrete page/annotation. -/
theorem C1_normalized_invariant_witness :
    extract_highlight_data cexPage w1Annot 1 = some w1High ∧
    (w1High.text ≠ "" ∧ pyStrip w1High.text ≠ "" ∧
      w1High.color.length = 3 ∧
      w1High.color_name = rgb_to_color_name w1High.color ∧
      (colorValInRange w1Annot.colors_stroke → colorValInRange w1Annot.colors_fill →
        ∀ c ∈ w1High.color, 0 ≤ c ∧ c ≤ 1)) :=
  ⟨by with_unfolding_all decide,
    C1_normalized_invariant cexPage w1Annot 1 w1High (by with_unfolding_all decide)⟩

/-! ## C4: color resolution rules -/

/-- C4: the normalizer resolves color as the stroke value if present, else
the fill value, else default yellow; a mapping/object falls back to yellow;
1 component is broadcast, 2 components are padded with a trailing 0.0, and
anything longer than 3 is truncated to the first 3. -/
theorem C4_color_resolution (stroke fill : Option ColorVal) :
    (∀ v, stroke = some v → resolveColor stroke fill = normColor v) ∧
    (stroke = none → ∀ v, fill = some v → resolveColor stroke fill = normColor v) ∧
    (stroke = none → fill = none → resolveColor stroke fill = [1.0, 1.0, 0.0]) ∧
    normColor .obj = [1.0, 1.0, 0.0] ∧
    (∀ a : ℚ, normColor (.nums [a]) = [a, a, a]) ∧
    (∀ a b : ℚ, normColor (.nums [a, b]) = [a, b, 0.0]) ∧
    (∀ cs : List ℚ, 3 ≤ cs.length → normColor (.nums cs) = cs.take 3) := by
  refine ⟨?_, ?_, ?_, rfl, fun a => rfl, fun a b => rfl, ?_⟩
  · intro v hv
    subst hv
    rfl
  · intro hs v hv
    subst hs
    subst hv
    rfl
  · intro hs hf
    subst hs
    subst hf
    rfl
  · intro cs h3
    unfold normColor
    dsimp only
    rw [if_neg (by omega)]

/-- Witness for C4 at concrete raw color values. -/
theorem C4_color_resolution_witness :
    (some (ColorVal.nums [5]) = some (ColorVal.nums [5]) ∧
      resolveColor (some (.nums [5])) none = normColor (.nums [5])) ∧
    resolveColor (some (.nums [5])) none = [5, 5, 5] :=
  ⟨⟨rfl, (C4_color_resolution (some (.nums [5])) none).1 (.nums [5]) rfl⟩,
    by with_unfolding_all decide⟩

/-! ## C5: per-annotation failures never propagate -/

theorem filterMap_length_of_isSome {α β : Type} (f : α → Option β) (l : List α)
    (h : ∀ a ∈ l, (f a).isSome) : (l.filterMap f).length = l.length := by
  induction l with
  | nil => rfl
  | cons a l ih =>
    obtain ⟨b, hb⟩ := Option.isSome_iff_exists.mp (h a (by simp))
    rw [List.filterMap_cons, hb]
    simp only [List.length_cons]
    rw [ih fun x hx => h x (by simp [hx])]

/-- An annotation whose primary text-recovery path raises and whose retry
of the rectangle query also raises is normalized to `none` (dropped). -/
theorem extract_highlight_data_of_recovery_exc (page : Page) (annot : RawAnnot)
    (n : ℕ) (hraise : tryGetText page annot = .exc)
    (hretry : page.getTextClip annot.rect = .exc) :
    extract_highlight_data page annot n = none := by
  unfold extract_highlight_data get_highlight_text
  rw [hraise, hretry]
  rfl

/-- C5: in a document with N highlight annotations of which exactly one
fails text recovery (both the quad path and the rectangle retry raise) and
the others normalize successfully, extraction keeps exactly the N-1
siblings (in order) and counts N-1; moreover extraction on an open document
always returns a result (never raises), and only the call without an open
document signals an error. -/
theorem C5_per_annotation_failure_isolated
    (sf sp ed : String) (page : Page) (pre post : List RawAnnot) (bad : RawAnnot)
    (hann : page.annots = .ok (pre ++ bad :: post))
    (hsib : ∀ a ∈ pre ++ post, a.typeCode = 8 ∧ (extract_highlight_data page a 1).isSome)
    (hbad8 : bad.typeCode = 8)
    (hraise : tryGetText page bad = .exc)
    (hretry : page.getTextClip bad.rect = .exc) :
    (extract_highlights sf sp ed ⟨[page]⟩).highlights
        = (pre ++ post).filterMap (fun a => extract_highlight_data page a 1) ∧
    (extract_highlights sf sp ed ⟨[page]⟩).total_highlights
        = pre.length + post.length ∧
    (∀ doc : Doc, extract_highlights_checked sf sp ed (some doc)
        = .ok (extract_highlights sf sp ed doc)) ∧
    extract_highlights_checked sf sp ed none
        = .error "Document not opened. Use context manager." := by
  have hbadnone : extract_highlight_data page bad 1 = none :=
    extract_highlight_data_of_recovery_exc page bad 1 hraise hretry
  have hpagelist :
      (extract_highlights sf sp ed ⟨[page]⟩).highlights
        = extract_page_highlights page 1 := by
    show pagesHighlights [page] 1 = extract_page_highlights page 1
    unfold pagesHighlights pagesHighlights
    exact List.append_nil _
  have hmain :
      extract_page_highlights page 1
        = (pre ++ post).filterMap (fun a => extract_highlight_data page a 1) := by
    unfold extract_page_highlights
    rw [hann]
    dsimp only
    rw [List.filterMap_append, List.filterMap_cons]
    rw [if_pos hbad8, hbadnone]
    rw [← List.filterMap_append]
    apply List.filterMap_congr
    intro a ha
    rw [if_pos (hsib a ha).1]
  have hcount :
      ((pre ++ post).filterMap (fun a => extract_highlight_data page a 1)).length
        = pre.length + post.length := by
    rw [filterMap_length_of_isSome _ _ fun a ha => (hsib a ha).2]
    exact List.length_append pre post
  refine ⟨hpagelist.trans hmain, ?_, fun doc => rfl, rfl⟩
  show (pagesHighlights [page] 1).length = pre.length + post.length
  have : pagesHighlights [page] 1
      = (pre ++ post).filterMap (fun a => extract_highlight_data page a 1) :=
    hpagelist.trans hmain
  rw [this, hcount]

/-- C5 witness data: three highlight annotations, the middle one failing
both text-recovery queries (the page raises on its rectangle). -/
def w5BadRect : Rect := ⟨9, 9, 9, 9⟩

/-- A sibling annotation that normalizes successfully. -/
def w5Sib (k : ℕ) : RawAnnot where
  typeCode := 8
  vertices := none
  colors_stroke := some (.nums [1, 1, 0])
  colors_fill := none
  rect := ⟨0, k, 1, 1⟩
  info_title := none
  info_subject := none
  info_creationDate := none

def w5Bad : RawAnnot where
  typeCode := 8
  vertices := none
  colors_stroke := some (.nums [1, 1, 0])
  colors_fill := none
  rect := w5BadRect
  info_title := none
  info_subject := none
  info_creationDate := none

def w5Page : Page where
  annots := .ok [w5Sib 1, w5Bad, w5Sib 2]
  getTextClip := fun r => if r = w5BadRect then .exc else .ok "txt"

/-- Witness for C5: the 3-annotation document with one failing annotation
yields exactly 2 highlights. -/
theorem C5_per_annotation_failure_isolated_witness :
    (w5Page.annots = .ok ([w5Sib 1] ++ w5Bad :: [w5Sib 2]) ∧
      (∀ a ∈ [w5Sib 1] ++ [w5Sib 2],
        a.typeCode = 8 ∧ (extract_highlight_data w5Page a 1).isSome) ∧
      w5Bad.typeCode = 8 ∧
      tryGetText w5Page w5Bad = .exc ∧
      w5Page.getTextClip w5Bad.rect = .exc) ∧
    (extract_highlights "f" "p" "d" ⟨[w5Page]⟩).highlights
        = ([w5Sib 1] ++ [w5Sib 2]).filterMap
            (fun a => extract_highlight_data w5Page a 1) ∧
    (extract_highlights "f" "p" "d" ⟨[w5Page]⟩).total_highlights = 1 + 1 ∧
    (∀ doc : Doc, extract_highlights_checked "f" "p" "d" (some doc)
        = .ok (extract_highlights "f" "p" "d" doc)) ∧
    extract_highlights_checked "f" "p" "d" none
        = .error "Document not opened. Use context manager." :=
  ⟨⟨by with_unfolding_all decide, by with_unfolding_all decide,
      by with_unfolding_all decide, by with_unfolding_all decide,
      by with_unfolding_all decide⟩,
    C5_per_annotation_failure_isolated "f" "p" "d" w5Page [w5Sib 1] [w5Sib 2] w5Bad
      (by with_unfolding_all decide) (by with_unfolding_all decide)
      (by with_unfolding_all decide) (by with_unfolding_all decide)
      (by with_unfolding_all decide)⟩

/-! ## C6: text recovery refines the spec's description -/

/-- Reference chunking following the spec's wording: the quad points
"grouped strictly in chunks of 4 corner points each; trailing incomplete
chunks are ignored", expressed by index arithmetic. -/
def chunksSpec (l : List (ℚ × ℚ)) : List (List (ℚ × ℚ)) :=
  (List.range (l.length / 4)).map fun i => (l.drop (4 * i)).take 4

theorem chunksSpec_eq_nil_of_lt (l : List (ℚ × ℚ)) (h : l.length < 4) :
    chunksSpec l = [] := by
  unfold chunksSpec
  rw [Nat.div_eq_of_lt h]
  rfl

theorem chunks4_eq_chunksSpec (l : List (ℚ × ℚ)) : chunks4 l = chunksSpec l := by
  induction l using chunks4.induct with
  | case1 a b c d rest ih =>
    rw [chunks4, ih]
    unfold chunksSpec
    rw [show (a :: b :: c :: d :: rest).length = rest.length + 4 from by
      simp only [List.length_cons]]
    rw [Nat.add_div_right _ (by norm_num)]
    rw [List.range_succ_eq_map, List.map_cons, List.map_map]
    congr 1
  | case2 l h =>
    have hlen : l.length < 4 := by
      match l, h with
      | [], _ => simp
      | [a], _ => simp
      | [a, b], _ => simp
      | [a, b, c], _ => simp
      | a :: b :: c :: d :: rest, h => exact absurd rfl (h a b c d rest)
    rw [chunksSpec_eq_nil_of_lt l hlen]
    unfold chunks4
    match l, hlen with
    | [], _ => rfl
    | [a], _ => rfl
    | [a, b], _ => rfl
    | [a, b, c], _ => rfl

/-- Reference definition following the spec's §4.2 description of
`recover_text` word by word: group the supplied quad points in strict
chunks of 4 (trailing incomplete chunk ignored), query each chunk's
axis-aligned bounding box, trim and keep the non-empty results, join them
with single spaces in quad order; when no quads were usable or zero
fragments were collected, query the annotation's bounding rectangle
(trimmed); if the primary path raises, retry the plain rectangle query
once and return the empty string if that also fails. -/
def recover_text_spec (page : Page) (annot : RawAnnot) : String :=
  let quads := chunksSpec (match annot.vertices with | some vs => vs | none => [])
  match collectParts page quads with
  | .exc =>
    match page.getTextClip annot.rect with
    | .ok t => pyStrip t
    | .exc => ""
  | .ok fragments =>
    if fragments.isEmpty then
      match page.getTextClip annot.rect with
      | .ok t => pyStrip t
      | .exc => ""
    else String.intercalate " " fragments

theorem intercalate_space_ite (t : String) :
    String.intercalate " " (if pyStrip t = "" then [] else [pyStrip t]) = pyStrip t := by
  by_cases hst : pyStrip t = ""
  · rw [if_pos hst, hst]
    rfl
  · rw [if_neg hst]
    rfl

/-- C6: `_get_highlight_text` computes exactly the spec's described
recovery: quad chunks of 4 with trailing leftovers ignored, per-chunk
bounding-box queries trimmed and joined by single spaces, rectangle
fallback when no quads are usable or no fragments were collected, one
rectangle retry on a raised exception, and `""` when that also fails. -/
theorem C6_text_recovery_refines_spec (page : Page) (annot : RawAnnot) :
    get_highlight_text page annot = recover_text_spec page annot := by
  unfold get_highlight_text recover_text_spec tryGetText
  cases hv : annot.vertices with
  | none =>
    dsimp only
    cases hr : page.getTextClip annot.rect with
    | ok t => exact intercalate_space_ite t
    | exc => rfl
  | some vs =>
    dsimp only
    by_cases h4 : 4 ≤ vs.length
    · rw [if_pos h4, chunks4_eq_chunksSpec]
      cases hc : collectParts page (chunksSpec vs) with
      | exc => rfl
      | ok parts =>
        dsimp only
        by_cases hp : parts.isEmpty
        · rw [if_pos hp, if_pos hp]
          cases hr : page.getTextClip annot.rect with
          | ok t => exact intercalate_space_ite t
          | exc => rfl
        · rw [if_neg hp, if_neg hp]
    · rw [if_neg h4]
      rw [chunksSpec_eq_nil_of_lt vs (by omega)]
      dsimp only
      cases hr : page.getTextClip annot.rect with
      | ok t => exact intercalate_space_ite t
      | exc => rfl

/-! ## Grouping engine (src/utils.py group_highlights and the exporters'
grouping loops).  A Python dict used in insertion order is modelled as an
association list: a new key is appended at the end, an existing key's list
grows at its place. -/

/-- One `if key not in grouped: grouped[key] = []; grouped[key].append(h)`
step on the insertion-ordered dict model. -/
def addToGroup {κ : Type} [DecidableEq κ] :
    List (κ × List Highlight) → κ → Highlight → List (κ × List Highlight)
  | [], k, h => [(k, [h])]
  | (k0, l) :: rest, k, h =>
    if k0 = k then (k0, l ++ [h]) :: rest
    else (k0, l) :: addToGroup rest k h

/-- The shared grouping loop (`for h in highlights: ... append`) keyed by
`f`, over an insertion-ordered dict. -/
def groupListBy {κ : Type} [DecidableEq κ] (f : Highlight → κ)
    (hs : List Highlight) : List (κ × List Highlight) :=
  hs.foldl (fun g h => addToGroup g (f h) h) []

/-- Dict lookup on the model (`grouped[key]`), defaulting to `[]`. -/
def lookupGroup {κ : Type} [DecidableEq κ] :
    List (κ × List Highlight) → κ → List Highlight
  | [], _ => []
  | (k0, l) :: rest, k => if k0 = k then l else lookupGroup rest k

/-- Embeds `group_highlights` (src/utils.py lines 122-146): group by stringified
page (`str(h.get('page', 0))`) or by color name; any other `group_by`
returns the dict left empty. -/
def group_highlights (highlights : List Highlight) (group_by : String) :
    List (String × List Highlight) :=
  if group_by = "page" then groupListBy (fun h => toString h.page) highlights
  else if group_by = "color" then groupListBy (fun h => h.color_name) highlights
  else []

theorem lookupGroup_addToGroup {κ : Type} [DecidableEq κ]
    (g : List (κ × List Highlight)) (k' k : κ) (h : Highlight) :
    lookupGroup (addToGroup g k' h) k
      = lookupGroup g k ++ (if k' = k then [h] else []) := by
  induction g with
  | nil =>
    by_cases hk : k' = k <;> simp [addToGroup, lookupGroup, hk]
  | cons e rest ih =>
    obtain ⟨k0, l⟩ := e
    by_cases h0 : k0 = k'
    · subst h0
      by_cases hk : k0 = k
      · subst hk
        simp [addToGroup, lookupGroup]
      · simp [addToGroup, lookupGroup, hk]
    · by_cases hk : k0 = k
      · subst hk
        have hk' : ¬ k' = k0 := fun he => h0 he.symm
        simp [addToGroup, lookupGroup, h0, hk']
      · simp [addToGroup, lookupGroup, h0, hk, ih]

theorem lookupGroup_foldl {κ : Type} [DecidableEq κ] (f : Highlight → κ)
    (hs : List Highlight) (g : List (κ × List Highlight)) (k : κ) :
    lookupGroup (hs.foldl (fun g h => addToGroup g (f h) h) g) k
      = lookupGroup g k ++ hs.filter (fun h => f h = k) := by
  induction hs generalizing g with
  | nil => simp
  | cons h hs ih =>
    rw [List.foldl_cons, ih, lookupGroup_addToGroup, List.filter_cons]
    by_cases hk : f h = k
    · simp [hk]
    · simp [hk]

/-- Stable grouping: the group stored under a key is exactly the source
list filtered to that key, in source order. -/
theorem lookupGroup_groupListBy {κ : Type} [DecidableEq κ] (f : Highlight → κ)
    (hs : List Highlight) (k : κ) :
    lookupGroup (groupListBy f hs) k = hs.filter (fun h => f h = k) := by
  unfold groupListBy
  rw [lookupGroup_foldl]
  rfl

/-- C8: grouping is deterministic (same call, same mapping) and stable: for
both admissible key selectors, the list stored under any key is the source
list filtered to that key, hence in source relative order. -/
theorem C8_grouping_deterministic_stable (hs : List Highlight)
    (group_by : String) (hgb : group_by = "page" ∨ group_by = "color")
    (k : String) :
    group_highlights hs group_by = group_highlights hs group_by ∧
    (group_by = "page" →
      lookupGroup (group_highlights hs group_by) k
        = hs.filter (fun h => toString h.page = k)) ∧
    (group_by = "color" →
      lookupGroup (group_highlights hs group_by) k
        = hs.filter (fun h => h.color_name = k)) := by
  refine ⟨rfl, ?_, ?_⟩
  · intro hp
    subst hp
    unfold group_highlights
    rw [if_pos rfl]
    exact lookupGroup_groupListBy _ hs k
  · intro hc
    subst hc
    unfold group_highlights
    rw [if_neg (by decide), if_pos rfl]
    exact lookupGroup_groupListBy _ hs k

/-- Concrete highlights for the grouping/formatter witnesses and
counterexamples. -/
def hlA : Highlight where
  page := 2
  text := "a"
  color := [1, 1, 0]
  color_name := "Yellow"
  rect := [0, 0, 1, 1]
  author := none
  created := none

def hlB : Highlight where
  page := 1
  text := "b"
  color := [1, 0, 0]
  color_name := "Red"
  rect := [0, 0, 1, 1]
  author := none
  created := none

def hlC : Highlight where
  page := 2
  text := "c"
  color := [1, 0, 0]
  color_name := "Red"
  rect := [0, 0, 1, 1]
  author := none
  created := none

/-- Witness for C8 on a concrete list: page "2" collects hlA then hlC, in
source order. -/
theorem C8_grouping_deterministic_stable_witness :
    ("page" = "page" ∨ "page" = "color") ∧
    lookupGroup (group_highlights [hlA, hlB, hlC] "page") "2" = [hlA, hlC] :=
  ⟨Or.inl rfl, by
    have h := (C8_grouping_deterministic_stable [hlA, hlB, hlC] "page"
      (Or.inl rfl) "2").2.1 rfl
    rw [h]
    with_unfolding_all decide⟩

/-! ## C10: unknown group keys are silent -/

/-- The value content of `format_json_output` (src/utils.py lines 149-168):
the result dictionary is the input data plus, when `group_by` is truthy
(Python: not `None` and not `""`) and the data has a `highlights` key
(always true for an extraction result), the attached `grouped_highlights`
view.  The `pretty` flag only selects indentation of the serialized text
and does not change the content. -/
structure JsonView where
  base : ExtractionResult
  grouped_highlights : Option (List (String × List Highlight))
deriving DecidableEq

def format_json_output (data : ExtractionResult) (pretty : Bool)
    (group_by : Option String) : JsonView :=
  { base := data
    grouped_highlights :=
      match group_by with
      | some gb =>
        if gb ≠ "" then some (group_highlights data.highlights gb) else none
      | none => none }

def c10Data : ExtractionResult where
  source_file := "f.pdf"
  source_path := "/tmp/f.pdf"
  extraction_date := "2024-01-01T00:00:00+00:00"
  total_pages := 2
  total_highlights := 3
  highlights := [hlA, hlB, hlC]

/-- C10 is false as stated for the empty string: `""` is a string other
than "page"/"color", the grouping function does return the empty mapping
for it, but `format_json_output` attaches no grouped view at all (Python
`if group_by` is falsy on `""`), rather than an empty one. -/
theorem C10_counterexample :
    group_highlights c10Data.highlights "" = [] ∧
    (format_json_output c10Data false (some "")).grouped_highlights = none ∧
    ¬ (format_json_output c10Data false (some "")).grouped_highlights = some [] := by
  refine ⟨rfl, rfl, ?_⟩
  intro h
  exact Option.noConfusion h

/-- C10 (amended): for every key selector other than "page"/"color" the
grouping function silently returns the empty mapping (it never raises);
for every such selector that is non-empty the JSON formatter attaches an
empty `grouped_highlights` view, while for the empty string it attaches no
view at all. -/
theorem C10_unknown_key_silent (hs : List Highlight) (gb : String)
    (hp : gb ≠ "page") (hc : gb ≠ "color") :
    group_highlights hs gb = [] ∧
    (gb ≠ "" → ∀ (data : ExtractionResult) (pretty : Bool),
      group_highlights data.highlights gb = [] ∧
      (format_json_output data pretty (some gb)).grouped_highlights = some []) ∧
    (∀ (data : ExtractionResult) (pretty : Bool),
      (format_json_output data pretty (some "")).grouped_highlights = none) := by
  have hmain : ∀ l : List Highlight, group_highlights l gb = [] := by
    intro l
    unfold group_highlights
    rw [if_neg hp, if_neg hc]
  refine ⟨hmain hs, ?_, fun data pretty => rfl⟩
  intro hne data pretty
  refine ⟨hmain data.highlights, ?_⟩
  show (if gb ≠ "" then some (group_highlights data.highlights gb) else none) = some []
  rw [if_pos hne, hmain data.highlights]

/-- Witness for the amended C10 at the concrete selector "invalid". -/
theorem C10_unknown_key_silent_witness :
    (("invalid" : String) ≠ "page" ∧ ("invalid" : String) ≠ "color" ∧
      ("invalid" : String) ≠ "") ∧
    group_highlights c10Data.highlights "invalid" = [] ∧
    (format_json_output c10Data true (some "invalid")).grouped_highlights = some [] :=
  ⟨⟨by decide, by decide, by decide⟩,
    (C10_unknown_key_silent c10Data.highlights "invalid" (by decide) (by decide)).1,
    ((C10_unknown_key_silent c10Data.highlights "invalid" (by decide) (by decide)).2.1
      (by decide) c10Data true).2⟩

/-! ## C7: group-key iteration order -/

/-- The key iteration order of the JSON grouped view: `json.dumps`
serializes dict keys in insertion order (no `sort_keys`), so it is the
association-list key order of `group_highlights`. -/
def jsonGroupedKeys (hs : List Highlight) (group_by : String) : List String :=
  (group_highlights hs group_by).map Prod.fst

theorem keys_addToGroup {κ : Type} [DecidableEq κ]
    (g : List (κ × List Highlight)) (k : κ) (h : Highlight) :
    (addToGroup g k h).map Prod.fst
      = if k ∈ g.map Prod.fst then g.map Prod.fst else g.map Prod.fst ++ [k] := by
  induction g with
  | nil => simp [addToGroup]
  | cons e rest ih =>
    obtain ⟨k0, l⟩ := e
    by_cases h0 : k0 = k
    · subst h0
      simp [addToGroup]
    · have h0' : ¬ k = k0 := fun he => h0 he.symm
      by_cases hmem : k ∈ rest.map Prod.fst
      · simp [addToGroup, h0, ih, hmem, List.mem_cons, h0']
      · simp [addToGroup, h0, ih, hmem, List.mem_cons, h0']

theorem nodup_keys_foldl {κ : Type} [DecidableEq κ] (f : Highlight → κ)
    (hs : List Highlight) :
    ∀ g : List (κ × List Highlight), (g.map Prod.fst).Nodup →
      (((hs.foldl (fun g h => addToGroup g (f h) h) g)).map Prod.fst).Nodup := by
  induction hs with
  | nil => intro g hg; simpa using hg
  | cons h hs ih =>
    intro g hg
    rw [List.foldl_cons]
    apply ih
    rw [keys_addToGroup]
    split
    · exact hg
    · rename_i hmem
      rw [List.nodup_append]
      refine ⟨hg, List.nodup_singleton _, ?_⟩
      intro x hx hx'
      rw [List.mem_singleton] at hx'
      exact hmem (hx' ▸ hx)

theorem nodup_keys_groupListBy {κ : Type} [DecidableEq κ] (f : Highlight → κ)
    (hs : List Highlight) : ((groupListBy f hs).map Prod.fst).Nodup :=
  nodup_keys_foldl f hs [] (by simp)

theorem mem_keys_addToGroup {κ : Type} [DecidableEq κ]
    (g : List (κ × List Highlight)) (k' k : κ) (h : Highlight) :
    k ∈ (addToGroup g k' h).map Prod.fst ↔ k ∈ g.map Prod.fst ∨ k = k' := by
  rw [keys_addToGroup]
  split
  · rename_i hmem
    constructor
    · exact Or.inl
    · rintro (hk | hk)
      · exact hk
      · exact hk ▸ hmem
  · simp [List.mem_append]

theorem mem_keys_foldl {κ : Type} [DecidableEq κ] (f : Highlight → κ)
    (hs : List Highlight) :
    ∀ (g : List (κ × List Highlight)) (k : κ),
      (k ∈ ((hs.foldl (fun g h => addToGroup g (f h) h) g)).map Prod.fst
        ↔ k ∈ g.map Prod.fst ∨ k ∈ hs.map f) := by
  induction hs with
  | nil => intro g k; simp
  | cons h hs ih =>
    intro g k
    rw [List.foldl_cons, ih, mem_keys_addToGroup]
    simp only [List.map_cons, List.mem_cons]
    tauto

/-- The distinct keys of the grouping dict are exactly the key values
occurring in the source list. -/
theorem mem_keys_groupListBy {κ : Type} [DecidableEq κ] (f : Highlight → κ)
    (hs : List Highlight) (k : κ) :
    k ∈ (groupListBy f hs).map Prod.fst ↔ k ∈ hs.map f := by
  unfold groupListBy
  rw [mem_keys_foldl]
  simp

/-- Sorting distinct keys with `sorted(keys)` gives a strictly ascending list. -/
theorem sorted_lt_insertionSort {κ : Type} [LinearOrder κ] (l : List κ)
    (hnd : l.Nodup) :
    List.Sorted (· < ·) (List.insertionSort (· ≤ ·) l) :=
  List.Sorted.lt_of_le (List.sorted_insertionSort (· ≤ ·) l)
    ((List.perm_insertionSort (· ≤ ·) l).nodup_iff.mpr hnd)

/-- Key iteration order of the outer page loop of
`NotionExporter._generate_markdown` with group_by="page"
(`for page_num in sorted(pages.keys())`). -/
def notionPageKeyOrder (hs : List Highlight) : List ℕ :=
  List.insertionSort (· ≤ ·) ((groupListBy (fun h => h.page) hs).map Prod.fst)

/-- Key iteration order of the inner color loop of the Markdown exporter
within one page group (`for color_name in sorted(colors.keys())`). -/
def notionColorsWithinPage (hs : List Highlight) (p : ℕ) : List String :=
  List.insertionSort (· ≤ ·)
    ((groupListBy (fun h => h.color_name)
        (lookupGroup (groupListBy (fun h => h.page) hs) p)).map Prod.fst)

/-- Key iteration order of the outer color loop of the Markdown exporter
with group_by="color". -/
def notionColorKeyOrder (hs : List Highlight) : List String :=
  List.insertionSort (· ≤ ·) ((groupListBy (fun h => h.color_name) hs).map Prod.fst)

/-- Key iteration order of the inner page loop of the Markdown exporter
within one color group. -/
def notionPagesWithinColor (hs : List Highlight) (cn : String) : List ℕ :=
  List.insertionSort (· ≤ ·)
    ((groupListBy (fun h => h.page)
        (lookupGroup (groupListBy (fun h => h.color_name) hs) cn)).map Prod.fst)

/-- Key iteration order of the outer page loop of
`XMindExporter._add_page_topics` (`for page_num in sorted(pages.keys())`). -/
def xmindPageKeyOrder (hs : List Highlight) : List ℕ :=
  List.insertionSort (· ≤ ·) ((groupListBy (fun h => h.page) hs).map Prod.fst)

/-- Key iteration order of the inner color loop of
`XMindExporter._add_page_topics` within one page group. -/
def xmindColorsWithinPage (hs : List Highlight) (p : ℕ) : List String :=
  List.insertionSort (· ≤ ·)
    ((groupListBy (fun h => h.color_name)
        (lookupGroup (groupListBy (fun h => h.page) hs) p)).map Prod.fst)

/-- Key iteration order of the outer color loop of
`XMindExporter._add_color_topics`. -/
def xmindColorKeyOrder (hs : List Highlight) : List String :=
  List.insertionSort (· ≤ ·) ((groupListBy (fun h => h.color_name) hs).map Prod.fst)

/-- Key iteration order of the inner page loop of
`XMindExporter._add_color_topics` within one color group. -/
def xmindPagesWithinColor (hs : List Highlight) (cn : String) : List ℕ :=
  List.insertionSort (· ≤ ·)
    ((groupListBy (fun h => h.page)
        (lookupGroup (groupListBy (fun h => h.color_name) hs) cn)).map Prod.fst)

/-- C7 is false as stated: the JSON grouped view iterates its keys in
first-occurrence order, not ascending order.  With highlights on pages
[2, 1] the produced key sequence is ["2", "1"]. -/
theorem C7_counterexample :
    jsonGroupedKeys [hlA, hlB] "page" = ["2", "1"] ∧
    ¬ List.Sorted (· ≤ ·) (jsonGroupedKeys [hlA, hlB] "page") := by
  have hkeys : jsonGroupedKeys [hlA, hlB] "page" = ["2", "1"] := by
    with_unfolding_all decide
  refine ⟨hkeys, ?_⟩
  rw [hkeys]
  intro hsort
  have h21 : ("2" : String) ≤ "1" :=
    (List.sorted_cons.mp hsort).1 "1" (by simp)
  exact absurd h21 (by with_unfolding_all decide)

/-- C7 (amended): the mind-map and Markdown formatters iterate every level
of group keys in strictly ascending order (pages numerically, color names
lexicographically), and those key sequences range over exactly the pages
and color names occurring in the highlight list; the JSON grouped view is
excluded: its keys follow first-occurrence order (see the counterexample). -/
theorem C7_sorted_iteration (hs : List Highlight) :
    (List.Sorted (· < ·) (notionPageKeyOrder hs) ∧
      List.Sorted (· < ·) (notionColorKeyOrder hs) ∧
      (∀ p, List.Sorted (· < ·) (notionColorsWithinPage hs p)) ∧
      (∀ cn, List.Sorted (· < ·) (notionPagesWithinColor hs cn)) ∧
      List.Sorted (· < ·) (xmindPageKeyOrder hs) ∧
      List.Sorted (· < ·) (xmindColorKeyOrder hs) ∧
      (∀ p, List.Sorted (· < ·) (xmindColorsWithinPage hs p)) ∧
      (∀ cn, List.Sorted (· < ·) (xmindPagesWithinColor hs cn))) ∧
    (∀ p, p ∈ notionPageKeyOrder hs ↔ p ∈ hs.map (fun h => h.page)) ∧
    (∀ cn, cn ∈ notionColorKeyOrder hs ↔ cn ∈ hs.map (fun h => h.color_name)) := by
  refine ⟨⟨?_, ?_, ?_, ?_, ?_, ?_, ?_, ?_⟩, ?_, ?_⟩
  · exact sorted_lt_insertionSort _ (nodup_keys_groupListBy _ _)
  · exact sorted_lt_insertionSort _ (nodup_keys_groupListBy _ _)
  · intro p
    exact sorted_lt_insertionSort _ (nodup_keys_groupListBy _ _)
  · intro cn
    exact sorted_lt_insertionSort _ (nodup_keys_groupListBy _ _)
  · exact sorted_lt_insertionSort _ (nodup_keys_groupListBy _ _)
  · exact sorted_lt_insertionSort _ (nodup_keys_groupListBy _ _)
  · intro p
    exact sorted_lt_insertionSort _ (nodup_keys_groupListBy _ _)
  · intro cn
    exact sorted_lt_insertionSort _ (nodup_keys_groupListBy _ _)
  · intro p
    unfold notionPageKeyOrder
    rw [(List.perm_insertionSort (· ≤ ·) _).mem_iff]
    exact mem_keys_groupListBy _ hs p
  · intro cn
    unfold notionColorKeyOrder
    rw [(List.perm_insertionSort (· ≤ ·) _).mem_iff]
    exact mem_keys_groupListBy _ hs cn

/-! ## C9: the XMind exporter (src/xmind_exporter.py) -/

/-- A topic node of the mind-map content tree: title, optional fill color
(the style's hex fill), children.  Node ids (random uuid tokens) carry no
information relevant to any claim and are omitted from the model. -/
inductive Topic where
  | node (title : String) (fill : Option String) (children : List Topic)

/-- Computes `Path(name).stem` for ordinary file names: final path component with
its last extension removed (collaborator function from pathlib). -/
def pathStem (s : String) : String :=
  let name := (s.splitOn "/").getLastD s
  let parts := name.splitOn "."
  if parts.length ≤ 1 then name
  else String.intercalate "." parts.dropLast

/-- Python `str.title()`: upper-case each letter that follows a non-letter,
lower-case the rest (collaborator string method). -/
def pyTitleAux : List Char → Bool → List Char
  | [], _ => []
  | c :: cs, prevAlpha =>
    (if c.isAlpha then (if prevAlpha then c.toLower else c.toUpper) else c)
      :: pyTitleAux cs c.isAlpha

def pyTitle (s : String) : String := String.mk (pyTitleAux s.data false)

/-- Embeds `_add_highlight_topic`: one leaf node per highlight, titled by its text
(`'No text'` default never fires on model records, which always carry
text), filled with its own hex color. -/
def highlightTopic (h : Highlight) : Topic :=
  .node h.text (some (rgb_to_hex h.color)) []

/-- The representative color of one color group:
`color_highlights[0].get('color', [])`. -/
def firstColorOf : List Highlight → List ℚ
  | [] => []
  | h :: _ => h.color

/-- Embeds `_add_page_topics` (lines 108-165): empty highlight list gives the
single "No highlights found" placeholder; otherwise pages ascending, color
groups ascending inside each page, leaves in source order. -/
def xmindAddPageTopics (hs : List Highlight) : List Topic :=
  if hs.isEmpty then [.node "No highlights found" none []]
  else
    (xmindPageKeyOrder hs).map fun p =>
      let phs := lookupGroup (groupListBy (fun h => h.page) hs) p
      .node ("Page " ++ toString p) none
        ((xmindColorsWithinPage hs p).map fun cn =>
          let chs := lookupGroup (groupListBy (fun h => h.color_name) phs) cn
          .node (pyTitle cn) (some (rgb_to_hex (firstColorOf chs)))
            (chs.map highlightTopic))

/-- Embeds `_add_color_topics` (lines 167-229): colors ascending, pages ascending
inside each color. -/
def xmindAddColorTopics (hs : List Highlight) : List Topic :=
  if hs.isEmpty then [.node "No highlights found" none []]
  else
    (xmindColorKeyOrder hs).map fun cn =>
      let chs := lookupGroup (groupListBy (fun h => h.color_name) hs) cn
      .node (pyTitle cn) (some (rgb_to_hex (firstColorOf chs)))
        ((xmindPagesWithinColor hs cn).map fun p =>
          .node ("Page " ++ toString p) none
            ((lookupGroup (groupListBy (fun h => h.page) chs) p).map highlightTopic))

/-- Embeds `_create_metadata_text`. -/
def xmindMetadataText (d : ExtractionResult) : String :=
  "Total Pages: " ++ toString d.total_pages ++ "\n" ++
  "Total Highlights: " ++ toString d.total_highlights ++ "\n" ++
  "Extraction Date: " ++ d.extraction_date ++ "\n" ++
  "Source Path: " ++ d.source_path

/-- Embeds the root/sheet title base of `_create_content`: the stem of `source_file`
unless it is the fallback string. -/
def xmindTitleBase (d : ExtractionResult) : String :=
  if d.source_file ≠ "PDF Highlights" then pathStem d.source_file
  else d.source_file

/-- The written archive, the content of the three zip members (file
writing being the terminal effect; an error result writes nothing). -/
structure XMindArchive where
  sheetTitle : String
  rootTitle : String
  rootNotes : String
  rootChildren : List Topic
  manifestEntries : List String
  creatorName : String
  creatorVersion : String
  created : String

/-- Embeds `XMindExporter.export` (lines 36-64): validate `group_by` first,
raising `ValueError` before any content is built or any output is opened;
on a valid value, build the sheet/manifest/metadata and write the archive. -/
def xmind_export (data : ExtractionResult) (group_by : String) :
    Except String XMindArchive :=
  if group_by ∈ (["page", "color"] : List String) then
    .ok
      { sheetTitle := "Highlights: " ++ xmindTitleBase data
        rootTitle := xmindTitleBase data
        rootNotes := xmindMetadataText data
        rootChildren :=
          if group_by = "page" then xmindAddPageTopics data.highlights
          else xmindAddColorTopics data.highlights
        manifestEntries := ["content.json", "metadata.json"]
        creatorName := "PDF Highlight Extractor"
        creatorVersion := "1.0.0"
        created := data.extraction_date }
  else .error ("Invalid group_by option: " ++ group_by)

/-- C9: any `group_by` other than "page"/"color" is rejected with an error
before any output is produced (the error result carries no archive, so the
output path is never written), and for the two valid values the export
succeeds for every extraction-result content. -/
theorem C9_invalid_group_by_rejected (data : ExtractionResult) (gb : String) :
    (gb ∉ (["page", "color"] : List String) →
      xmind_export data gb = .error ("Invalid group_by option: " ++ gb)) ∧
    (gb ∈ (["page", "color"] : List String) →
      ∃ a, xmind_export data gb = .ok a) := by
  constructor
  · intro h
    unfold xmind_export
    rw [if_neg h]
  · intro h
    unfold xmind_export
    rw [if_pos h]
    exact ⟨_, rfl⟩

/-- Witness for C9 at the selectors "invalid" and "page". -/
theorem C9_invalid_group_by_rejected_witness :
    (("invalid" : String) ∉ (["page", "color"] : List String) ∧
      xmind_export c10Data "invalid"
        = .error ("Invalid group_by option: " ++ "invalid")) ∧
    (("page" : String) ∈ (["page", "color"] : List String) ∧
      ∃ a, xmind_export c10Data "page" = .ok a) :=
  ⟨⟨by decide, (C9_invalid_group_by_rejected c10Data "invalid").1 (by decide)⟩,
    ⟨by decide, (C9_invalid_group_by_rejected c10Data "page").2 (by decide)⟩⟩

end Highext
